import Mathlib

/-!
Verification development for the pair-based conversation-memory manager of
the tazaticket repository (src/app/langgraph/memory_manager.py and
src/app/langgraph/memory_utils.py).

The Python classes and functions are shallowly embedded as Lean structures
and pure functions.  Mutable state (`ThreadState`) becomes explicit state
passing; the DynamoDB table becomes an explicit `Store` / `CounterStore`
value; fallible paths return `Except`; the unbounded retry loop of
`_batch_write_pairs` is modelled with explicit fuel.  Wall-clock timestamps
(`get_now_iso`, `time.time`) are not computable here, so every operation
that stamps a timestamp takes the stamp as an explicit `now : String`
argument, and the idle check of `on_session_start` takes its boolean
outcome as an explicit `idle : Bool` argument.  Locks and the per-thread
registry are not modelled: every embedded operation acts on one thread's
state, exactly as the Python code does under its per-thread lock.
-/

namespace TazaTicket

set_option maxRecDepth 16384

/-- Configuration values that memory_utils.py reads from the environment:
CONTEXT_PAIRS, BATCH_PAIRS and MAX_RAM_PAIRS. -/
structure Config where
  CONTEXT_PAIRS : Nat
  BATCH_PAIRS : Nat
  MAX_RAM_PAIRS : Nat
deriving Repr, DecidableEq

/-- Embedding of the `Message` dataclass of memory_utils.py.  In Python the
`seq` field is typed `int` but the code defends against non-int values with
`isinstance(..., int)` checks (`_assign_seqs_for_flush`,
`on_session_start`), so it is embedded as `Option Nat` with `none` playing
the role of a missing/non-int seq.  The free-form optional `meta` dict is
not modelled (no claim touches it). -/
structure Message where
  role : String
  content : String
  ts_iso : String
  seq : Option Nat
  turn : Nat
deriving Repr, DecidableEq

/-- Embedding of the `Pair` dataclass: one user→assistant exchange. -/
structure Pair where
  turn : Nat
  user_message : Message
  assistant_message : Option Message := none
deriving Repr, DecidableEq

/-- Embedding of `Pair.is_complete`. -/
def Pair.is_complete (p : Pair) : Bool :=
  p.assistant_message.isSome

/-- One `{role, content}` entry of the flattened LLM context. -/
structure RoleContent where
  role : String
  content : String
deriving Repr, DecidableEq

/-- Embedding of `Pair.to_messages`. -/
def Pair.to_messages (p : Pair) : List RoleContent :=
  let messages : List RoleContent := [⟨p.user_message.role, p.user_message.content⟩]
  match p.assistant_message with
  | some am => messages ++ [⟨am.role, am.content⟩]
  | none => messages

/-- Embedding of the `ThreadState` dataclass (the lock and the float
`last_activity_at` are not modelled; idle detection is an explicit boolean
input of `on_session_start`). -/
structure ThreadState where
  thread_id : String
  session_id : String
  next_seq : Nat := 1
  next_turn : Nat := 1
  context_pairs : List Pair := []
  batch_pairs : List Pair := []
  open_pair : Option Pair := none
deriving Repr, DecidableEq

/-- A thread's in-memory state together with the chronological log of pairs
that have been written durably (the effect of `_batch_write_pairs` on the
store, for runs in which every durable write succeeds). -/
structure MState where
  ts : ThreadState
  written : List Pair := []
deriving Repr, DecidableEq

/-- Embedding of `MemoryManager.add_user_message` (the caller-facing
`start_turn`).  Faithful to the source: there is no check whatsoever that
`open_pair` is empty — a new open pair simply overwrites whatever was
there. -/
def add_user_message (s : ThreadState) (content now : String) : ThreadState :=
  let seq := s.next_seq
  let turn := s.next_turn
  let user_message : Message := ⟨"user", content, now, some seq, turn⟩
  { s with next_seq := seq + 1,
           open_pair := some ⟨turn, user_message, none⟩ }

/-- Embedding of `MemoryManager._evict_oldest_pair_to_batch`:
`context_pairs.pop(0)` is appended to `batch_pairs`. -/
def evict_oldest_pair_to_batch (s : ThreadState) : ThreadState :=
  match s.context_pairs with
  | [] => s
  | oldest :: rest =>
      { s with context_pairs := rest, batch_pairs := s.batch_pairs ++ [oldest] }

/-- Embedding of `MemoryManager._check_and_flush_batch` for runs in which
the durable write succeeds: if `len(batch_pairs) >= BATCH_PAIRS` the batch
is written and cleared. -/
def check_and_flush_batch (cfg : Config) (s : MState) : MState :=
  if cfg.BATCH_PAIRS ≤ s.ts.batch_pairs.length then
    { ts := { s.ts with batch_pairs := [] }, written := s.written ++ s.ts.batch_pairs }
  else s

/-- Embedding of `MemoryManager._enforce_ram_limit` for runs in which the
durable write succeeds: if the total exceeds `MAX_RAM_PAIRS` the batch is
written and cleared regardless of the batch threshold. -/
def enforce_ram_limit (cfg : Config) (s : MState) : MState :=
  if cfg.MAX_RAM_PAIRS < s.ts.context_pairs.length + s.ts.batch_pairs.length then
    { ts := { s.ts with batch_pairs := [] }, written := s.written ++ s.ts.batch_pairs }
  else s

/-- The completed pair built by `add_assistant_message`: the open pair `p`
with the freshly stamped assistant message attached (seq taken from
`next_seq`, turn copied from the open pair). -/
def close_pair (s : ThreadState) (p : Pair) (content now : String) : Pair :=
  { p with assistant_message := some ⟨"assistant", content, now, some s.next_seq, p.turn⟩ }

/-- The in-memory phase of `MemoryManager.add_assistant_message`: attach the
assistant message, clear `open_pair`, advance `next_turn`, append the
completed pair to `context_pairs`, and evict the oldest pair if the window
now exceeds `CONTEXT_PAIRS` (lines 284–312 of memory_manager.py). -/
def complete_turn_core (cfg : Config) (s : ThreadState) (content now : String) (p : Pair) :
    ThreadState :=
  let completed := close_pair s p content now
  let s1 := { s with next_seq := s.next_seq + 1,
                     open_pair := none,
                     next_turn := s.next_turn + 1,
                     context_pairs := s.context_pairs ++ [completed] }
  if cfg.CONTEXT_PAIRS < s1.context_pairs.length then evict_oldest_pair_to_batch s1 else s1

/-- Embedding of `MemoryManager.add_assistant_message` (the caller-facing
`complete_turn`), for runs in which durable writes succeed.  With no open
pair it raises `ValueError("No open pair to close with assistant
message")`, embedded as `Except.error`. -/
def add_assistant_message (cfg : Config) (s : MState) (content now : String) :
    Except String MState :=
  match s.ts.open_pair with
  | none => .error "No open pair to close with assistant message"
  | some p =>
      let ts2 := complete_turn_core cfg s.ts content now p
      .ok (enforce_ram_limit cfg (check_and_flush_batch cfg ⟨ts2, s.written⟩))

/-- Embedding of `MemoryManager.get_context_for_llm` (the caller-facing
`window_for_caller`): flatten `context_pairs` in order, then append the
open pair's user message if a pair is open. -/
def get_context_for_llm (s : ThreadState) : List RoleContent :=
  let messages := s.context_pairs.foldl (fun acc p => acc ++ p.to_messages) []
  match s.open_pair with
  | some p => messages ++ [⟨p.user_message.role, p.user_message.content⟩]
  | none => messages

/-- Embedding of `MemoryManager.flush_batch` (success path). -/
def flush_batch (s : MState) : MState :=
  if s.ts.batch_pairs.isEmpty then s
  else { ts := { s.ts with batch_pairs := [] }, written := s.written ++ s.ts.batch_pairs }

/-- Embedding of `MemoryManager.flush_all` (success path): collect
`context_pairs ++ batch_pairs`, add the open pair only if it is complete,
write everything, then clear all RAM state including `open_pair`. -/
def flush_all (s : MState) : MState :=
  let all_pairs := s.ts.context_pairs ++ s.ts.batch_pairs ++
    (match s.ts.open_pair with
     | some p => if p.is_complete then [p] else []
     | none => [])
  { ts := { s.ts with context_pairs := [], batch_pairs := [], open_pair := none },
    written := s.written ++ all_pairs }

/-- One caller-facing memory operation (timestamps supplied explicitly). -/
inductive MemOp where
  | user (content now : String)
  | assistant (content now : String)
  | flushBatch
  | flushAll
deriving Repr, DecidableEq

/-- Apply one operation.  A rejected `assistant` call (ValueError raised
before any state mutation) leaves the state unchanged, as in the source. -/
def applyOp (cfg : Config) (s : MState) : MemOp → MState
  | .user content now => { s with ts := add_user_message s.ts content now }
  | .assistant content now =>
      match add_assistant_message cfg s content now with
      | .ok s' => s'
      | .error _ => s
  | .flushBatch => flush_batch s
  | .flushAll => flush_all s

/-- Run a sequence of caller-facing operations. -/
def runOps (cfg : Config) (s : MState) : List MemOp → MState
  | [] => s
  | op :: ops => runOps cfg (applyOp cfg s op) ops

/-! ## Durable store: read side (memory_utils.py) -/

/-- One message row of the DynamoDB table as read back by
`read_pairs_from_dynamodb` (the old row-per-message format). -/
structure StoredItem where
  role : String
  content : String
  ts_iso : String
  seq : Nat
  turn : Nat
deriving Repr, DecidableEq

/-- One entry of the flattened `messages` JSON blob stored at `seq = -1`
(the "conversation state" format parsed by
`load_conversation_state_from_dynamodb`). -/
structure BlobMsg where
  role : String
  content : String
  ts_iso : String
  turn : Nat
deriving Repr, DecidableEq

/-- The per-thread slice of the durable table seen by the read paths: the
optional conversation-state item at sort key `seq = -1`, and the message
rows, held in ascending `seq` order (the table's sort key).  The `seq = 0`
counter row is modelled separately (`CounterStore`). -/
structure Store where
  blob : Option (List BlobMsg)
  rows : List StoredItem
deriving Repr, DecidableEq

/-- Loop of the blob branch of `load_conversation_state_from_dynamodb`
(lines 294–321 of memory_utils.py): a `user` entry starts a new pair with
placeholder `seq=1`, an `assistant` entry completes the current pair with
placeholder `seq=2`; a trailing incomplete pair is appended as-is. -/
def pairs_from_blob_aux : List BlobMsg → Option Pair → List Pair → List Pair
  | [], cur, acc =>
      match cur with
      | some p => acc ++ [p]
      | none => acc
  | m :: rest, cur, acc =>
      if m.role = "user" then
        pairs_from_blob_aux rest
          (some ⟨m.turn, ⟨m.role, m.content, m.ts_iso, some 1, m.turn⟩, none⟩) acc
      else if m.role = "assistant" then
        match cur with
        | some p =>
            pairs_from_blob_aux rest none
              (acc ++ [{ p with assistant_message := some ⟨m.role, m.content, m.ts_iso, some 2, m.turn⟩ }])
        | none => pairs_from_blob_aux rest none acc
      else pairs_from_blob_aux rest cur acc

/-- Blob branch of `load_conversation_state_from_dynamodb`. -/
def pairs_from_blob (msgs : List BlobMsg) : List Pair :=
  pairs_from_blob_aux msgs none []

/-- Update the `messages_by_turn[turn][role]` slot of the grouping dict of
`read_pairs_from_dynamodb` (later assignments overwrite earlier ones).  The
first slot is the `user` message, the second the `assistant` one; other
roles never reach the dict lookup that builds pairs, so they are dropped
here. -/
def upsert_turn (turn : Nat) (role : String) (msg : Message) :
    List (Nat × (Option Message × Option Message)) →
    List (Nat × (Option Message × Option Message))
  | [] => [(turn, if role = "user" then (some msg, none) else (none, some msg))]
  | (t, slots) :: rest =>
      if t = turn then
        (t, if role = "user" then (some msg, slots.2) else (slots.1, some msg)) :: rest
      else (t, slots) :: upsert_turn turn role msg rest

/-- Group queried rows by turn, skipping the `META` role, as in lines
155–174 of memory_utils.py. -/
def group_items : List StoredItem → List (Nat × (Option Message × Option Message)) →
    List (Nat × (Option Message × Option Message))
  | [], acc => acc
  | it :: rest, acc =>
      if it.role = "META" then group_items rest acc
      else
        if it.role = "user" ∨ it.role = "assistant" then
          group_items rest
            (upsert_turn it.turn it.role ⟨it.role, it.content, it.ts_iso, some it.seq, it.turn⟩ acc)
        else group_items rest acc

/-- Insert a key into a list sorted in descending order. -/
def insert_desc (x : Nat) : List Nat → List Nat
  | [] => [x]
  | y :: rest => if y ≤ x then x :: y :: rest else y :: insert_desc x rest

/-- Sort keys in descending order, as `sorted(keys, reverse=True)` does. -/
def sort_desc : List Nat → List Nat
  | [] => []
  | x :: rest => insert_desc x (sort_desc rest)

/-- Build the newest-first pair list from the grouped dict: a pair is built
for every turn that has a user message and kept only if complete. -/
def pairs_desc (grouped : List (Nat × (Option Message × Option Message))) :
    List Nat → List Pair
  | [] => []
  | t :: rest =>
      match grouped.lookup t with
      | some (some um, am) =>
          let pr : Pair := ⟨t, um, am⟩
          if pr.is_complete then pr :: pairs_desc grouped rest else pairs_desc grouped rest
      | some (none, _) => pairs_desc grouped rest
      | none => pairs_desc grouped rest

/-- Embedding of `read_pairs_from_dynamodb`: query rows with `seq > 0` in
descending seq order with limit `n*2 + 10`, group them by turn, keep the
complete pairs of the newest `n` turns, and return them in chronological
order. -/
def read_pairs_from_dynamodb (store : Store) (n : Nat) : List Pair :=
  let queried := ((store.rows.filter (fun r => 0 < r.seq)).reverse).take (n * 2 + 10)
  let grouped := group_items queried []
  ((pairs_desc grouped (sort_desc (grouped.map (fun e => e.1)))).take n).reverse

/-- Embedding of `load_conversation_state_from_dynamodb`: the blob at
`seq = -1` is preferred; otherwise (and on any error, which we do not
model) fall back to the row-per-message format limited to
`CONTEXT_PAIRS`. -/
def load_conversation_state_from_dynamodb (cfg : Config) (store : Store) : List Pair :=
  match store.blob with
  | some msgs => pairs_from_blob msgs
  | none => read_pairs_from_dynamodb store cfg.CONTEXT_PAIRS

/-- Maximum turn over loaded pairs (`max(p.turn for p in pairs)`; only used
on nonempty lists, where the 0 seed is absorbed). -/
def max_turn_of_pairs (pairs : List Pair) : Nat :=
  pairs.foldl (fun a p => max a p.turn) 0

/-- Maximum seq over all int-seq messages of the loaded pairs, starting
from 0, as in lines 228–233 of memory_manager.py. -/
def max_seq_of_pairs (pairs : List Pair) : Nat :=
  pairs.foldl (fun a p =>
    let a1 := match p.user_message.seq with
      | some n => max a n
      | none => a
    match p.assistant_message with
    | some am =>
        match am.seq with
        | some n => max a1 n
        | none => a1
    | none => a1) 0

/-- Embedding of `MemoryManager.on_session_start`.  The idle-timeout test
(`time.time() - last_activity_at > SESSION_IDLE_SECONDS`) is supplied as
the boolean `idle`; the fresh uuid as `new_session`.  When idle, all pairs
are flushed and the in-memory window cleared; then, if `context_pairs` is
empty, the conversation state is reloaded from the store and
`next_seq`/`next_turn` are recomputed from the loaded pairs. -/
def on_session_start (cfg : Config) (idle : Bool) (new_session : String)
    (store : Store) (s : MState) : MState :=
  let s :=
    if idle then
      let s1 := flush_all s
      { s1 with ts := { s1.ts with session_id := new_session } }
    else s
  if s.ts.context_pairs.isEmpty then
    let pairs := load_conversation_state_from_dynamodb cfg store
    let ts1 := { s.ts with context_pairs := pairs }
    let ts2 :=
      if pairs.isEmpty then ts1
      else { ts1 with next_turn := max_turn_of_pairs pairs + 1,
                      next_seq := max_seq_of_pairs pairs + 1 }
    { s with ts := ts2 }
  else s

/-! ## Durable store: write side (`_batch_write_pairs`) -/

/-- One storage record as built by `_batch_write_pairs` (lines 150–176 of
memory_manager.py): content capped at 38000 characters, timestamp falling
back to `get_now_iso()` when empty. -/
structure WriteRecord where
  thread_id : String
  seq : Nat
  turn : Nat
  role : String
  content : String
  ts_iso : String
  session_id : String
deriving Repr, DecidableEq

/-- Build the record for one message of a pair (`turn` comes from the pair,
as `int(p.turn)` in the source). -/
def record_of_message (thread_id session_id now : String) (turn : Nat) (m : Message) :
    WriteRecord :=
  ⟨thread_id, m.seq.getD 0, turn, m.role,
   if m.content.length ≤ 38000 then m.content else m.content.take 38000,
   if m.ts_iso = "" then now else m.ts_iso, session_id⟩

/-- Build the item list of `_batch_write_pairs`: per pair, the user record
then the assistant record when present. -/
def build_items (thread_id session_id now : String) (pairs : List Pair) :
    List WriteRecord :=
  pairs.foldl (fun acc p =>
    let acc := acc ++ [record_of_message thread_id session_id now p.turn p.user_message]
    match p.assistant_message with
    | some am => acc ++ [record_of_message thread_id session_id now p.turn am]
    | none => acc) []

/-- Defensive duplicate-key guard of `_batch_write_pairs`: true when two
items share the `(thread_id, seq)` key. -/
def has_dup_key : List (String × Nat) → Bool
  | [] => false
  | k :: rest => rest.contains k || has_dup_key rest

/-- Keys of the built items. -/
def item_keys (items : List WriteRecord) : List (String × Nat) :=
  items.map (fun it => (it.thread_id, it.seq))

/-- Fueled chunking loop (each iteration consumes at least one item, so
fuel equal to the list length always suffices). -/
def chunks25_fuel : Nat → List WriteRecord → List (List WriteRecord)
  | _, [] => []
  | 0, _ :: _ => []
  | fuel + 1, x :: rest => ((x :: rest).take 25) :: chunks25_fuel fuel ((x :: rest).drop 25)

/-- Chunking of the item list into batches of at most 25, as in
`_batch_write_pairs` (`CHUNK = 25`). -/
def chunks25 (l : List WriteRecord) : List (List WriteRecord) :=
  chunks25_fuel l.length l

/-- Fueled model of the inner retry loop of `_batch_write_pairs` (lines
191–199: `while True: ... if not un: break; chunk = un`).  `oracle n c` is
the `UnprocessedItems` list returned by the n-th `batch_write_item` call on
request list `c`.  The result is the number of calls made, or `none` when
the fuel runs out with the loop still running — the Python loop has no
attempt cap, so only termination-for-this-oracle is expressible. -/
def write_chunk_loop (oracle : Nat → List WriteRecord → List WriteRecord) :
    Nat → Nat → List WriteRecord → Option Nat
  | 0, _, _ => none
  | fuel + 1, attempt, chunk =>
      let un := oracle attempt chunk
      if un.isEmpty then some (attempt + 1)
      else write_chunk_loop oracle fuel (attempt + 1) un

/-- Run the retry loop over every chunk; `none` when any chunk's loop runs
out of fuel. -/
def run_chunks (oracle : Nat → List WriteRecord → List WriteRecord) (fuel : Nat) :
    List (List WriteRecord) → Option Unit
  | [] => some ()
  | c :: cs =>
      match write_chunk_loop oracle fuel 0 c with
      | none => none
      | some _ => run_chunks oracle fuel cs

/-- Fueled model of `_batch_write_pairs` as a whole: empty input returns at
once; an internal duplicate `(thread_id, seq)` raises
`RuntimeError("Duplicate key in batch build: ...")`; otherwise the chunks
are written under the retry loop.  `Except.ok none` means the fuel ran out
inside the unbounded retry loop.  Seq assignment (`_assign_seqs_for_flush`)
is a no-op here because every modelled pair already carries int seqs, just
as every pair produced by `add_user_message`/`add_assistant_message`
does. -/
def batch_write_pairs_fueled (oracle : Nat → List WriteRecord → List WriteRecord)
    (thread_id session_id now : String) (pairs : List Pair) (fuel : Nat) :
    Except String (Option Unit) :=
  if pairs.isEmpty then .ok (some ())
  else
    let items := build_items thread_id session_id now pairs
    if has_dup_key (item_keys items) then .error "Duplicate key in batch build"
    else .ok (run_chunks oracle fuel (chunks25 items))

/-- Exception-level model of `_batch_write_pairs` for claims about error
propagation: `outcome` is whether the underlying DynamoDB call raises
(`ClientError` etc.).  The function has no try/except of its own, so a
store exception propagates; the duplicate-key guard raises
`RuntimeError`. -/
def batch_write_pairs_exc (outcome : Except String Unit)
    (thread_id session_id now : String) (pairs : List Pair) : Except String Unit :=
  if pairs.isEmpty then .ok ()
  else
    let items := build_items thread_id session_id now pairs
    if has_dup_key (item_keys items) then .error "Duplicate key in batch build"
    else outcome

/-- Exception-level model of `_check_and_flush_batch`: flush when the batch
threshold is reached; on a write failure the exception propagates to the
caller (second component `some e`) and — the `batch_pairs.clear()` on the
next line never runs — the state is left untouched. -/
def check_and_flush_batch_exc (cfg : Config) (outcome : Except String Unit)
    (now : String) (s : MState) : MState × Option String :=
  if cfg.BATCH_PAIRS ≤ s.ts.batch_pairs.length then
    match batch_write_pairs_exc outcome s.ts.thread_id s.ts.session_id now s.ts.batch_pairs with
    | .error e => (s, some e)
    | .ok _ =>
        ({ ts := { s.ts with batch_pairs := [] }, written := s.written ++ s.ts.batch_pairs },
         none)
  else (s, none)

/-! ## Counter allocator (`_reserve_seq_block`) -/

/-- The per-thread counter row at sort key `seq = 0`. -/
structure CounterRow where
  next_seq : Nat
  next_turn : Nat
deriving Repr, DecidableEq

/-- The counter slice of the durable table: `none` when the META row does
not exist yet. -/
structure CounterStore where
  meta : Option CounterRow
deriving Repr, DecidableEq

/-- Conditional-put-if-absent of the META row (lines 98–111 of
memory_manager.py).  When the row already exists — including when a racing
caller created it first — the `ConditionalCheckFailedException` is caught
and ignored, so the existing row is preserved. -/
def ensure_meta_row (st : CounterStore) : CounterStore :=
  match st.meta with
  | none => ⟨some ⟨0, 0⟩⟩
  | some _ => st

/-- Current value of the `next_seq` counter attribute (0 when absent, which
is also the value DynamoDB's `ADD` starts from). -/
def counter_value (st : CounterStore) : Nat :=
  match st.meta with
  | none => 0
  | some r => r.next_seq

/-- Embedding of `MemoryManager._reserve_seq_block`: `count <= 0` returns 0
without touching the store; otherwise the META row is created idempotently
and `ADD next_seq :count` atomically bumps the counter, returning
`end_seq - count + 1`, the inclusive start of the reserved block. -/
def reserve_seq_block (st : CounterStore) (count : Nat) : Nat × CounterStore :=
  if count = 0 then (0, st)
  else
    let st1 := ensure_meta_row st
    let row := match st1.meta with
      | some r => r
      | none => ⟨0, 0⟩
    let end_seq := row.next_seq + count
    (end_seq - count + 1, ⟨some { row with next_seq := end_seq }⟩)

/-- A sequence of block reservations against the shared counter store.
Each reservation is a single atomic read-modify-write, so any interleaving
of concurrent callers is some such sequence.  Returns the `(start, count)`
blocks in order together with the final store. -/
def reserve_all (st : CounterStore) : List Nat → List (Nat × Nat) × CounterStore
  | [] => ([], st)
  | c :: cs =>
      let r := reserve_seq_block st c
      let rest := reserve_all r.2 cs
      ((r.1, c) :: rest.1, rest.2)

/-- The seq values covered by a reserved block. -/
def block_seqs (b : Nat × Nat) : List Nat :=
  List.range' b.1 b.2

/-! ## Concrete scenario inputs -/

/-- The configuration of the spec's scenarios: CONTEXT_PAIRS=15,
BATCH_PAIRS=20, MAX_RAM_PAIRS=50. -/
def cfg0 : Config := ⟨15, 20, 50⟩

/-- A freshly created thread state (`ThreadState` defaults: next_seq = 1,
next_turn = 1, empty window). -/
def freshTS : ThreadState := ⟨"T1", "S1", 1, 1, [], [], none⟩

/-- Fresh thread state with an empty durable-write log. -/
def freshM : MState := ⟨freshTS, []⟩

/-- All seq values of the messages of a pair list, user before assistant,
in order. -/
def pair_seqs (pairs : List Pair) : List (Option Nat) :=
  pairs.foldl (fun acc p =>
    let acc := acc ++ [p.user_message.seq]
    match p.assistant_message with
    | some am => acc ++ [am.seq]
    | none => acc) []

/-- Two complete turns on a fresh thread. -/
def run4 : MState :=
  runOps cfg0 freshM [.user "u1" "t1", .assistant "a1" "t2", .user "u2" "t3", .assistant "a2" "t4"]

/-- The flattened-JSON conversation-state blob describing the same two
exchanges (role/content/timestamp/turn are all the blob stores — seqs are
not in the blob, which is why the loader invents placeholders). -/
def blob4 : List BlobMsg :=
  [⟨"user", "u1", "t1", 1⟩, ⟨"assistant", "a1", "t2", 1⟩,
   ⟨"user", "u2", "t3", 2⟩, ⟨"assistant", "a2", "t4", 2⟩]

/-- A store holding that blob at `seq = -1`. -/
def store_blob4 : Store := ⟨some blob4, []⟩

/-- Cold start (fresh process, not idle) reloading from `store_blob4`. -/
def reload4 : MState := on_session_start cfg0 false "S2" store_blob4 freshM

/-- A conversation-state blob with 51 complete pairs. -/
def blob51 : List BlobMsg :=
  (List.range 51).flatMap (fun i => [⟨"user", "u", "t", i + 1⟩, ⟨"assistant", "a", "t", i + 1⟩])

/-- A store holding the 51-pair blob. -/
def store51 : Store := ⟨some blob51, []⟩

/-- Cold start reloading from the 51-pair blob. -/
def reload51 : MState := on_session_start cfg0 false "S2" store51 freshM

/-- A conversation-state blob with 16 complete pairs (one more than
CONTEXT_PAIRS). -/
def blob16 : List BlobMsg :=
  (List.range 16).flatMap (fun i => [⟨"user", "u", "t", i + 1⟩, ⟨"assistant", "a", "t", i + 1⟩])

/-- A store holding the 16-pair blob. -/
def store16 : Store := ⟨some blob16, []⟩

/-- Cold start reloading from the 16-pair blob. -/
def reload16 : MState := on_session_start cfg0 false "S2" store16 freshM

/-- Seventeen complete pairs issued sequentially on a fresh thread. -/
def ops17 : List MemOp :=
  (List.range 17).flatMap (fun _ => [.user "u" "t", .assistant "a" "t"])

/-- State after the 17 complete pairs. -/
def run17 : MState := runOps cfg0 freshM ops17

/-- Five complete pairs followed by one unmatched start_turn. -/
def ops5open : List MemOp :=
  ((List.range 5).flatMap (fun _ => [.user "u" "t", .assistant "a" "t"])) ++ [.user "u6" "t6"]

/-- State after five complete pairs plus an open user message. -/
def run5open : MState := runOps cfg0 freshM ops5open

/-- Thread state with a pair already open (one start_turn on a fresh
thread). -/
def s_open : ThreadState := add_user_message freshTS "first" "t1"

/-- Two complete pairs with distinct assigned seqs, used as a batch buffer
content for the flush-failure scenarios. -/
def pA : Pair := ⟨1, ⟨"user", "u1", "t1", some 1, 1⟩, some ⟨"assistant", "a1", "t2", some 2, 1⟩⟩

/-- Second such pair. -/
def pB : Pair := ⟨2, ⟨"user", "u2", "t3", some 3, 2⟩, some ⟨"assistant", "a2", "t4", some 4, 2⟩⟩

/-- A small configuration whose batch threshold the two-pair buffer meets. -/
def cfg_small : Config := ⟨1, 2, 5⟩

/-- A state whose batch buffer has reached the flush threshold of
`cfg_small`. -/
def sBatch : MState := ⟨⟨"T1", "S1", 5, 3, [], [pA, pB], none⟩, []⟩

/-! ## Helper lemmas -/

lemma check_and_flush_batch_ts (cfg : Config) (s : MState) :
    (check_and_flush_batch cfg s).ts.context_pairs = s.ts.context_pairs ∧
    (check_and_flush_batch cfg s).ts.open_pair = s.ts.open_pair ∧
    (check_and_flush_batch cfg s).ts.next_turn = s.ts.next_turn ∧
    (check_and_flush_batch cfg s).ts.next_seq = s.ts.next_seq := by
  unfold check_and_flush_batch
  split <;> simp

lemma enforce_ram_limit_ts (cfg : Config) (s : MState) :
    (enforce_ram_limit cfg s).ts.context_pairs = s.ts.context_pairs ∧
    (enforce_ram_limit cfg s).ts.open_pair = s.ts.open_pair ∧
    (enforce_ram_limit cfg s).ts.next_turn = s.ts.next_turn ∧
    (enforce_ram_limit cfg s).ts.next_seq = s.ts.next_seq := by
  unfold enforce_ram_limit
  split <;> simp

lemma flush_batch_ts (s : MState) :
    (flush_batch s).ts.context_pairs = s.ts.context_pairs ∧
    (flush_batch s).ts.open_pair = s.ts.open_pair ∧
    (flush_batch s).ts.next_turn = s.ts.next_turn ∧
    (flush_batch s).ts.batch_pairs.length ≤ s.ts.batch_pairs.length := by
  unfold flush_batch
  split <;> simp

/-- Exact effect of the append/evict phase on the context window and the
batch buffer: the completed pair is appended, and when the window then
exceeds CONTEXT_PAIRS the head (oldest pair) moves to the batch buffer. -/
lemma complete_turn_core_spec (cfg : Config) (s : ThreadState) (content now : String)
    (p : Pair) :
    (complete_turn_core cfg s content now p).context_pairs =
      (if cfg.CONTEXT_PAIRS < (s.context_pairs ++ [close_pair s p content now]).length
       then (s.context_pairs ++ [close_pair s p content now]).tail
       else s.context_pairs ++ [close_pair s p content now]) ∧
    (complete_turn_core cfg s content now p).batch_pairs =
      (if cfg.CONTEXT_PAIRS < (s.context_pairs ++ [close_pair s p content now]).length
       then s.batch_pairs ++ (s.context_pairs ++ [close_pair s p content now]).take 1
       else s.batch_pairs) := by
  simp only [complete_turn_core, evict_oldest_pair_to_batch]
  constructor <;> split <;> cases hc : s.context_pairs <;> simp_all

lemma complete_turn_core_fields (cfg : Config) (s : ThreadState) (content now : String)
    (p : Pair) :
    (complete_turn_core cfg s content now p).open_pair = none ∧
    (complete_turn_core cfg s content now p).next_turn = s.next_turn + 1 ∧
    (complete_turn_core cfg s content now p).next_seq = s.next_seq + 1 := by
  simp only [complete_turn_core, evict_oldest_pair_to_batch]
  refine ⟨?_, ?_, ?_⟩ <;> split <;> cases hc : s.context_pairs <;> simp_all

lemma complete_turn_core_len (cfg : Config) (s : ThreadState) (content now : String)
    (p : Pair) (h : s.context_pairs.length ≤ cfg.CONTEXT_PAIRS) :
    (complete_turn_core cfg s content now p).context_pairs.length ≤ cfg.CONTEXT_PAIRS := by
  rcases complete_turn_core_spec cfg s content now p with ⟨hctx, -⟩
  rw [hctx]
  split
  · rename_i hgt
    simp only [List.length_tail, List.length_append, List.length_singleton] at hgt ⊢
    omega
  · rename_i hle
    simp only [List.length_append, List.length_singleton] at hle ⊢
    omega

lemma ctxlen_applyOp (cfg : Config) (s : MState) (op : MemOp)
    (h : s.ts.context_pairs.length ≤ cfg.CONTEXT_PAIRS) :
    (applyOp cfg s op).ts.context_pairs.length ≤ cfg.CONTEXT_PAIRS := by
  cases op with
  | user content now => simpa [applyOp, add_user_message] using h
  | assistant content now =>
      unfold applyOp add_assistant_message
      cases hop : s.ts.open_pair with
      | none => simpa using h
      | some p =>
          simp only []
          rw [(enforce_ram_limit_ts _ _).1, (check_and_flush_batch_ts _ _).1]
          exact complete_turn_core_len cfg s.ts content now p h
  | flushBatch =>
      have := (flush_batch_ts s).1
      simp only [applyOp]
      rw [this]; exact h
  | flushAll => simp [applyOp, flush_all]

lemma ctxlen_runOps (cfg : Config) (s : MState) (ops : List MemOp)
    (h : s.ts.context_pairs.length ≤ cfg.CONTEXT_PAIRS) :
    (runOps cfg s ops).ts.context_pairs.length ≤ cfg.CONTEXT_PAIRS := by
  induction ops generalizing s with
  | nil => exact h
  | cons op rest ih => exact ih _ (ctxlen_applyOp cfg s op h)

/-- Structural invariant of a thread state reachable through the
caller-facing operations: the context window is sorted by strictly
increasing turn, every windowed turn is below `next_turn`, and the open
pair (if any) carries exactly `next_turn`.  It justifies reading "oldest
pair" as "smallest turn". -/
structure TurnsSorted (ts : ThreadState) : Prop where
  ctx_sorted : ts.context_pairs.Pairwise (fun a b => a.turn < b.turn)
  ctx_turns : ∀ p ∈ ts.context_pairs, p.turn < ts.next_turn
  open_turn : ∀ p, ts.open_pair = some p → p.turn = ts.next_turn

lemma turnsSorted_of_fields (a b : ThreadState)
    (h1 : b.context_pairs = a.context_pairs) (h2 : b.next_turn = a.next_turn)
    (h3 : b.open_pair = a.open_pair) (ha : TurnsSorted a) : TurnsSorted b := by
  refine ⟨?_, ?_, ?_⟩
  · rw [h1]; exact ha.ctx_sorted
  · rw [h1, h2]; exact ha.ctx_turns
  · rw [h2, h3]; exact ha.open_turn

lemma turnsSorted_core (cfg : Config) (s : ThreadState) (content now : String) (p : Pair)
    (hs : TurnsSorted s) (hp : s.open_pair = some p) :
    TurnsSorted (complete_turn_core cfg s content now p) := by
  have hturn : (close_pair s p content now).turn = s.next_turn := hs.open_turn p hp
  have hpw : (s.context_pairs ++ [close_pair s p content now]).Pairwise
      (fun a b => a.turn < b.turn) := by
    refine List.pairwise_append.mpr ⟨hs.ctx_sorted, List.pairwise_singleton _ _, ?_⟩
    intro a ha b hb
    rcases List.mem_singleton.mp hb with rfl
    rw [hturn]
    exact hs.ctx_turns a ha
  have hmem : ∀ q ∈ s.context_pairs ++ [close_pair s p content now],
      q.turn < s.next_turn + 1 := by
    intro q hq
    rcases List.mem_append.mp hq with h | h
    · exact Nat.lt_succ_of_lt (hs.ctx_turns q h)
    · rcases List.mem_singleton.mp h with rfl
      rw [hturn]; exact Nat.lt_succ_self _
  rcases complete_turn_core_spec cfg s content now p with ⟨hctx, -⟩
  rcases complete_turn_core_fields cfg s content now p with ⟨hopen, hnt, -⟩
  refine ⟨?_, ?_, ?_⟩
  · rw [hctx]
    split
    · exact hpw.sublist (List.tail_sublist _)
    · exact hpw
  · intro q hq
    rw [hnt]
    rw [hctx] at hq
    refine hmem q ?_
    revert hq
    split
    · exact fun hq => (List.tail_sublist _).mem hq
    · exact fun hq => hq
  · intro q hq
    rw [hopen] at hq
    exact absurd hq (by simp)

lemma turnsSorted_applyOp (cfg : Config) (s : MState) (op : MemOp)
    (hs : TurnsSorted s.ts) : TurnsSorted (applyOp cfg s op).ts := by
  cases op with
  | user content now =>
      refine ⟨hs.ctx_sorted, hs.ctx_turns, ?_⟩
      intro q hq
      simp only [applyOp, add_user_message] at hq
      injection hq with h
      rw [← h]
      rfl
  | assistant content now =>
      unfold applyOp add_assistant_message
      cases hop : s.ts.open_pair with
      | none => exact hs
      | some p =>
          simp only []
          have hcore := turnsSorted_core cfg s.ts content now p hs hop
          refine turnsSorted_of_fields _ _ ?_ ?_ ?_ hcore
          · rw [(enforce_ram_limit_ts _ _).1, (check_and_flush_batch_ts _ _).1]
          · rw [(enforce_ram_limit_ts _ _).2.2.1, (check_and_flush_batch_ts _ _).2.2.1]
          · rw [(enforce_ram_limit_ts _ _).2.1, (check_and_flush_batch_ts _ _).2.1]
  | flushBatch =>
      refine turnsSorted_of_fields s.ts _ (flush_batch_ts s).1 (flush_batch_ts s).2.2.1
        (flush_batch_ts s).2.1 hs
  | flushAll =>
      refine ⟨?_, ?_, ?_⟩ <;> simp [applyOp, flush_all]

lemma turnsSorted_runOps (cfg : Config) (s : MState) (ops : List MemOp)
    (hs : TurnsSorted s.ts) : TurnsSorted (runOps cfg s ops).ts := by
  induction ops generalizing s with
  | nil => exact hs
  | cons op rest ih => exact ih _ (turnsSorted_applyOp cfg s op hs)

/-- After `_enforce_ram_limit`, the total is within the ceiling provided
the window alone is. -/
lemma enforce_ram_limit_post (cfg : Config) (s : MState)
    (h : s.ts.context_pairs.length ≤ cfg.MAX_RAM_PAIRS) :
    (enforce_ram_limit cfg s).ts.context_pairs.length +
      (enforce_ram_limit cfg s).ts.batch_pairs.length ≤ cfg.MAX_RAM_PAIRS := by
  unfold enforce_ram_limit
  split
  · simpa using h
  · rename_i hle
    omega

lemma ram_applyOp (cfg : Config) (hcm : cfg.CONTEXT_PAIRS ≤ cfg.MAX_RAM_PAIRS)
    (s : MState) (op : MemOp)
    (hwin : s.ts.context_pairs.length ≤ cfg.CONTEXT_PAIRS)
    (hram : s.ts.context_pairs.length + s.ts.batch_pairs.length ≤ cfg.MAX_RAM_PAIRS) :
    (applyOp cfg s op).ts.context_pairs.length +
      (applyOp cfg s op).ts.batch_pairs.length ≤ cfg.MAX_RAM_PAIRS := by
  cases op with
  | user content now => simpa [applyOp, add_user_message] using hram
  | assistant content now =>
      unfold applyOp add_assistant_message
      cases hop : s.ts.open_pair with
      | none => simpa using hram
      | some p =>
          simp only []
          refine enforce_ram_limit_post cfg _ ?_
          rw [(check_and_flush_batch_ts _ _).1]
          exact le_trans (complete_turn_core_len cfg s.ts content now p hwin) hcm
  | flushBatch =>
      simp only [applyOp]
      unfold flush_batch
      split
      · exact hram
      · have h1 : s.ts.context_pairs.length ≤ cfg.MAX_RAM_PAIRS := by omega
        simpa using h1
  | flushAll => simp [applyOp, flush_all]

lemma ram_runOps (cfg : Config) (hcm : cfg.CONTEXT_PAIRS ≤ cfg.MAX_RAM_PAIRS)
    (s : MState) (ops : List MemOp)
    (hwin : s.ts.context_pairs.length ≤ cfg.CONTEXT_PAIRS)
    (hram : s.ts.context_pairs.length + s.ts.batch_pairs.length ≤ cfg.MAX_RAM_PAIRS) :
    (runOps cfg s ops).ts.context_pairs.length +
      (runOps cfg s ops).ts.batch_pairs.length ≤ cfg.MAX_RAM_PAIRS := by
  induction ops generalizing s with
  | nil => exact hram
  | cons op rest ih =>
      exact ih _ (ctxlen_applyOp cfg s op hwin) (ram_applyOp cfg hcm s op hwin hram)

/-- Folding `extend` over the context pairs is the concatenation of their
message lists. -/
lemma foldl_append_join (l : List Pair) (acc : List RoleContent) :
    l.foldl (fun a p => a ++ p.to_messages) acc = acc ++ (l.map Pair.to_messages).flatten := by
  induction l generalizing acc with
  | nil => simp
  | cons p rest ih => simp [ih, List.append_assoc]

lemma to_messages_length (p : Pair) : p.to_messages.length ≤ 2 := by
  unfold Pair.to_messages
  cases p.assistant_message <;> simp

lemma join_length_le (l : List Pair) :
    ((l.map Pair.to_messages).flatten).length ≤ 2 * l.length := by
  induction l with
  | nil => simp
  | cons p rest ih =>
      have := to_messages_length p
      simp only [List.map_cons, List.flatten_cons, List.length_append, List.length_cons]
      omega

/-! ## Claim theorems -/

/-- C1 (counterexample).  The claim predicts that start_turn
(`add_user_message`) fails with an InvalidStateError while a pair is
already open.  In the code there is no such check: with `s_open` holding
an open pair for "first", a second `add_user_message` returns normally
(the embedding is a total function on states — the source has no raise in
this method at all) and silently replaces the open pair; the first user
message survives nowhere in the state. -/
theorem start_turn_overwrites_open_pair_cex :
    s_open.open_pair = some ⟨1, ⟨"user", "first", "t1", some 1, 1⟩, none⟩
    ∧ (add_user_message s_open "second" "t2").open_pair
        = some ⟨1, ⟨"user", "second", "t2", some 2, 1⟩, none⟩
    ∧ (add_user_message s_open "second" "t2").context_pairs = []
    ∧ (add_user_message s_open "second" "t2").batch_pairs = [] :=
  ⟨rfl, rfl, rfl, rfl⟩

/-- C1 (amended).  complete_turn (`add_assistant_message`) with no open
pair does fail with the protocol-violation ValueError, as claimed; but
start_turn (`add_user_message`) with a pair already open does not fail:
it replaces `open_pair` with a brand-new pair for the current turn
(discarding the previously open user message) and leaves the window and
batch buffer untouched. -/
theorem protocol_enforcement_amended (cfg : Config) (s : MState) (ts : ThreadState)
    (content now : String) :
    (s.ts.open_pair = none →
      add_assistant_message cfg s content now =
        .error "No open pair to close with assistant message")
    ∧ (∀ p, ts.open_pair = some p →
        (add_user_message ts content now).open_pair =
          some ⟨ts.next_turn, ⟨"user", content, now, some ts.next_seq, ts.next_turn⟩, none⟩
        ∧ (add_user_message ts content now).context_pairs = ts.context_pairs
        ∧ (add_user_message ts content now).batch_pairs = ts.batch_pairs) := by
  constructor
  · intro h
    unfold add_assistant_message
    rw [h]
  · intro p _
    exact ⟨rfl, rfl, rfl⟩

/-- C1 (witness): the amended claim instantiated at a fresh thread (no
open pair) and at `s_open` (pair open for "first"). -/
theorem protocol_enforcement_amended_witness :
    (freshM.ts.open_pair = none
      ∧ add_assistant_message cfg0 freshM "a" "t" =
          .error "No open pair to close with assistant message")
    ∧ (s_open.open_pair = some ⟨1, ⟨"user", "first", "t1", some 1, 1⟩, none⟩
      ∧ (add_user_message s_open "second" "t2").open_pair =
          some ⟨s_open.next_turn,
            ⟨"user", "second", "t2", some s_open.next_seq, s_open.next_turn⟩, none⟩) :=
  ⟨⟨rfl, (protocol_enforcement_amended cfg0 freshM s_open "a" "t").1 rfl⟩,
   ⟨rfl, ((protocol_enforcement_amended cfg0 freshM s_open "second" "t2").2
      ⟨1, ⟨"user", "first", "t1", some 1, 1⟩, none⟩ rfl).1⟩⟩

/-- C2 (code bug).  Two complete turns on a fresh thread produce messages
with seqs 1–4 and leave next_seq = 5.  Reloading the same conversation
after a restart through the JSON-blob branch of
`load_conversation_state_from_dynamodb` yields pairs whose messages carry
the placeholder seqs 1,2,1,2 — pairwise duplicated, despite the source
comment "We'll renumber these" (the renumbering never happens:
`_assign_seqs_for_flush` skips any message whose seq is already an int) —
and `on_session_start` reconstructs next_seq = max(1,2)+1 = 3, not ≥ 5.
The next user message therefore reuses seq 3, which the thread had already
produced before the restart. -/
theorem blob_reload_reuses_seqs_bug :
    run4.ts.next_seq = 5
    ∧ pair_seqs run4.ts.context_pairs = [some 1, some 2, some 3, some 4]
    ∧ reload4.ts.next_seq = 3
    ∧ reload4.ts.next_turn = 3
    ∧ pair_seqs reload4.ts.context_pairs = [some 1, some 2, some 1, some 2]
    ∧ ¬ (pair_seqs reload4.ts.context_pairs).Nodup
    ∧ (add_user_message reload4.ts "u3" "t5").open_pair =
        some ⟨3, ⟨"user", "u3", "t5", some 3, 3⟩, none⟩
    ∧ some 3 ∈ pair_seqs run4.ts.context_pairs := by
  refine ⟨rfl, by decide, rfl, rfl, by decide, by decide, by decide, by decide⟩

/-- C5 (counterexample).  The claimed bound is not true of every reachable
state: `on_session_start` (a caller-facing operation, invoked before
`get_context_for_llm` on every message by graph_config.py) reloads the
JSON-blob conversation state into `context_pairs` without any window
limit, so a 16-pair blob under CONTEXT_PAIRS=15 yields a reachable state
whose window has 32 flattened entries — exceeding `2*CONTEXT_PAIRS + 1 =
31`. -/
theorem window_bound_blob_reload_cex :
    reload16.ts.context_pairs.length = 16
    ∧ cfg0.CONTEXT_PAIRS < reload16.ts.context_pairs.length
    ∧ (get_context_for_llm reload16.ts).length = 32
    ∧ 2 * cfg0.CONTEXT_PAIRS + 1 < (get_context_for_llm reload16.ts).length :=
  ⟨by decide, by decide, by decide, by decide⟩

/-- C5 (amended).  For any thread state whose window respects the
windowing invariant (`len(context_pairs) ≤ CONTEXT_PAIRS` — preserved by
every start_turn/complete_turn/flush sequence per C3, but violable by
`on_session_start`'s unbounded blob reload, as the counterexample shows),
`get_context_for_llm` returns exactly the flattened `{role, content}`
entries of `context_pairs` in order, followed by the open pair's user
message when one exists, and its length never exceeds
`2*CONTEXT_PAIRS + 1`. -/
theorem window_for_caller_spec (cfg : Config) (s : ThreadState)
    (h : s.context_pairs.length ≤ cfg.CONTEXT_PAIRS) :
    get_context_for_llm s =
      (s.context_pairs.map Pair.to_messages).flatten ++
        (match s.open_pair with
         | some p => [⟨p.user_message.role, p.user_message.content⟩]
         | none => [])
    ∧ (get_context_for_llm s).length ≤ 2 * cfg.CONTEXT_PAIRS + 1 := by
  have hshape : get_context_for_llm s =
      (s.context_pairs.map Pair.to_messages).flatten ++
        (match s.open_pair with
         | some p => [(⟨p.user_message.role, p.user_message.content⟩ : RoleContent)]
         | none => []) := by
    unfold get_context_for_llm
    rw [foldl_append_join]
    cases s.open_pair <;> simp
  refine ⟨hshape, ?_⟩
  rw [hshape]
  have hj := join_length_le s.context_pairs
  cases s.open_pair <;> simp only [List.length_append, List.length_singleton,
    List.length_nil] <;> omega

/-- C5 (witness): after 5 complete pairs plus one unmatched start_turn the
window has exactly 11 entries (10 from the complete pairs, 1 for the open
user message), within the 2*15+1 bound. -/
theorem window_for_caller_spec_witness :
    run5open.ts.context_pairs.length ≤ cfg0.CONTEXT_PAIRS
    ∧ (get_context_for_llm run5open.ts).length = 11
    ∧ (get_context_for_llm run5open.ts).length ≤ 2 * cfg0.CONTEXT_PAIRS + 1 :=
  ⟨by decide, by decide, (window_for_caller_spec cfg0 run5open.ts (by decide)).2⟩

/-- C8.  With CONTEXT_PAIRS=15, BATCH_PAIRS=20, MAX_RAM_PAIRS=50, issuing
17 complete pairs sequentially on a fresh thread leaves 15 pairs in the
context window and 2 in the batch buffer, and nothing has been written
durably. -/
theorem seventeen_pairs_scenario :
    run17.ts.context_pairs.length = 15
    ∧ run17.ts.batch_pairs.length = 2
    ∧ run17.written = [] :=
  ⟨by decide, by decide, rfl⟩

/-- C3.  Starting from any state whose window respects the bound (for a
fresh thread it is 0), every sequence of caller-facing operations keeps
`len(context_pairs) ≤ CONTEXT_PAIRS` — in particular after each
complete_turn.  When the window is full and a pair completes, exactly the
single head pair (FIFO) moves from `context_pairs` to `batch_pairs` and
the completed pair is appended; when it is not full, nothing is evicted.
The `TurnsSorted` invariant is preserved by every operation, and under it
the head of the window is the pair of smallest turn, so FIFO eviction is
eviction of the smallest turn. -/
theorem window_bound_and_fifo_eviction (cfg : Config) (s : MState)
    (h : s.ts.context_pairs.length ≤ cfg.CONTEXT_PAIRS) :
    (∀ ops, (runOps cfg s ops).ts.context_pairs.length ≤ cfg.CONTEXT_PAIRS)
    ∧ (∀ content now p,
        s.ts.context_pairs.length = cfg.CONTEXT_PAIRS → 0 < cfg.CONTEXT_PAIRS →
          (complete_turn_core cfg s.ts content now p).context_pairs =
            s.ts.context_pairs.tail ++ [close_pair s.ts p content now]
          ∧ (complete_turn_core cfg s.ts content now p).batch_pairs =
            s.ts.batch_pairs ++ s.ts.context_pairs.take 1)
    ∧ (∀ content now p,
        s.ts.context_pairs.length < cfg.CONTEXT_PAIRS →
          (complete_turn_core cfg s.ts content now p).context_pairs =
            s.ts.context_pairs ++ [close_pair s.ts p content now]
          ∧ (complete_turn_core cfg s.ts content now p).batch_pairs = s.ts.batch_pairs)
    ∧ (TurnsSorted s.ts → ∀ ops, TurnsSorted (runOps cfg s ops).ts)
    ∧ (∀ hd, s.ts.context_pairs.head? = some hd →
        s.ts.context_pairs.Pairwise (fun a b => a.turn < b.turn) →
        ∀ q ∈ s.ts.context_pairs, hd.turn ≤ q.turn) := by
  refine ⟨fun ops => ctxlen_runOps cfg s ops h, ?_, ?_, ?_, ?_⟩
  · intro content now p hfull hpos
    rcases complete_turn_core_spec cfg s.ts content now p with ⟨hctx, hbat⟩
    have hcond : cfg.CONTEXT_PAIRS <
        (s.ts.context_pairs ++ [close_pair s.ts p content now]).length := by
      simp only [List.length_append, List.length_singleton]
      omega
    rw [hctx, hbat, if_pos hcond, if_pos hcond]
    cases hc : s.ts.context_pairs with
    | nil => rw [hc] at hfull; simp at hfull; omega
    | cons a rest => simp
  · intro content now p hlt
    rcases complete_turn_core_spec cfg s.ts content now p with ⟨hctx, hbat⟩
    have hcond : ¬ cfg.CONTEXT_PAIRS <
        (s.ts.context_pairs ++ [close_pair s.ts p content now]).length := by
      simp only [List.length_append, List.length_singleton]
      omega
    rw [hctx, hbat, if_neg hcond, if_neg hcond]
    exact ⟨rfl, rfl⟩
  · intro hs ops
    exact turnsSorted_runOps cfg s ops hs
  · intro hd hhd hpw q hq
    cases hc : s.ts.context_pairs with
    | nil => rw [hc] at hq; exact absurd hq (by simp)
    | cons a rest =>
        rw [hc] at hhd hpw hq
        have ha : a = hd := by
          simpa using hhd
        subst ha
        rcases List.mem_cons.mp hq with rfl | hq'
        · exact le_refl _
        · exact le_of_lt ((List.pairwise_cons.mp hpw).1 q hq')

/-- C3 (witness): instantiated at the state after 17 complete pairs (a
full window of 15) and one further complete pair. -/
theorem window_bound_and_fifo_eviction_witness :
    run17.ts.context_pairs.length ≤ cfg0.CONTEXT_PAIRS
    ∧ (runOps cfg0 run17 [.user "x" "tx", .assistant "y" "ty"]).ts.context_pairs.length
        ≤ cfg0.CONTEXT_PAIRS :=
  ⟨by decide, (window_bound_and_fifo_eviction cfg0 run17 (by decide)).1
      [.user "x" "tx", .assistant "y" "ty"]⟩

/-- C4 (counterexample).  `on_session_start` performs no RAM-limit check:
reloading a conversation-state blob holding 51 pairs under
MAX_RAM_PAIRS=50 leaves 51 pairs in memory with no forced durable flush
(nothing written), so the claimed ceiling does not hold after this
caller-facing operation. -/
theorem ram_ceiling_blob_reload_cex :
    cfg0.MAX_RAM_PAIRS <
        reload51.ts.context_pairs.length + reload51.ts.batch_pairs.length
    ∧ reload51.ts.context_pairs.length = 51
    ∧ reload51.written = [] :=
  ⟨by decide, by decide, rfl⟩

/-- C4 (amended).  For every state within the bounds and every sequence of
start_turn/complete_turn/flush operations, `len(context_pairs) +
len(batch_pairs) ≤ MAX_RAM_PAIRS` holds after every operation (given the
configured CONTEXT_PAIRS ≤ MAX_RAM_PAIRS), and whenever the total exceeds
the ceiling, `_enforce_ram_limit` immediately flushes all of `batch_pairs`
durably regardless of the batch threshold.  `on_session_start` is the
exception the counterexample exhibits: its JSON-blob reload can exceed the
ceiling without a flush. -/
theorem ram_ceiling_amended (cfg : Config) (hcm : cfg.CONTEXT_PAIRS ≤ cfg.MAX_RAM_PAIRS)
    (s : MState)
    (hwin : s.ts.context_pairs.length ≤ cfg.CONTEXT_PAIRS)
    (hram : s.ts.context_pairs.length + s.ts.batch_pairs.length ≤ cfg.MAX_RAM_PAIRS) :
    (∀ ops, (runOps cfg s ops).ts.context_pairs.length +
        (runOps cfg s ops).ts.batch_pairs.length ≤ cfg.MAX_RAM_PAIRS)
    ∧ (∀ s' : MState,
        cfg.MAX_RAM_PAIRS < s'.ts.context_pairs.length + s'.ts.batch_pairs.length →
          enforce_ram_limit cfg s' =
            ⟨{ s'.ts with batch_pairs := [] }, s'.written ++ s'.ts.batch_pairs⟩) := by
  constructor
  · intro ops
    exact ram_runOps cfg hcm s ops hwin hram
  · intro s' h'
    unfold enforce_ram_limit
    rw [if_pos h']

/-- C4 (witness): the amended bound instantiated on a fresh thread running
the 17-pair scenario. -/
theorem ram_ceiling_amended_witness :
    cfg0.CONTEXT_PAIRS ≤ cfg0.MAX_RAM_PAIRS
    ∧ (runOps cfg0 freshM ops17).ts.context_pairs.length +
        (runOps cfg0 freshM ops17).ts.batch_pairs.length ≤ cfg0.MAX_RAM_PAIRS :=
  ⟨by decide,
   (ram_ceiling_amended cfg0 (by decide) freshM (by decide) (by decide)).1 ops17⟩

/-- C6 (code bug).  The retry loop of `MemoryManager._batch_write_pairs`
(`while True: ... if not un: break; chunk = un`) has no cap on the number
of attempts: against a store that reports every submitted item as
unprocessed, the loop never exits — for every amount of fuel the fueled
embedding is still running — and the whole `_batch_write_pairs` call on a
single pair likewise never completes.  Only the backoff delay is bounded
(`min(backoff, 4.0)`), not the attempt count, contradicting the claimed
"bounded number of times ... before giving up". -/
theorem batch_write_retry_unbounded_bug (fuel attempt : Nat) (r : WriteRecord)
    (chunk : List WriteRecord) :
    write_chunk_loop (fun _ c => c) fuel attempt (r :: chunk) = none
    ∧ ∀ f : Nat, batch_write_pairs_fueled (fun _ c => c) "T1" "S1" "t" [pA] f = .ok none := by
  have hloop : ∀ (fl at_ : Nat) (r' : WriteRecord) (ch : List WriteRecord),
      write_chunk_loop (fun _ c => c) fl at_ (r' :: ch) = none := by
    intro fl
    induction fl with
    | zero => intro at_ r' ch; rfl
    | succ n ih =>
        intro at_ r' ch
        show write_chunk_loop (fun _ c => c) n (at_ + 1) (r' :: ch) = none
        exact ih (at_ + 1) r' ch
  refine ⟨hloop fuel attempt r chunk, ?_⟩
  intro f
  have hred : batch_write_pairs_fueled (fun _ c => c) "T1" "S1" "t" [pA] f =
      Except.ok (run_chunks (fun _ c => c) f
        [[⟨"T1", 1, 1, "user", "u1", "t1", "S1"⟩,
          ⟨"T1", 2, 1, "assistant", "a1", "t2", "S1"⟩]]) := rfl
  rw [hred]
  have h2 := hloop f 0 ⟨"T1", 1, 1, "user", "u1", "t1", "S1"⟩
      [⟨"T1", 2, 1, "assistant", "a1", "t2", "S1"⟩]
  simp [run_chunks, h2]

/-- C7 (counterexample).  A store exception during the flush triggered by
`_check_and_flush_batch` IS raised to the caller of the triggering
operation: `_batch_write_pairs` has no try/except, so with a failing store
the flush returns the error (second component `some ...`), contradicting
the claim that the failure "is not raised to the caller". -/
theorem flush_failure_raises_cex :
    check_and_flush_batch_exc cfg_small
        (.error "ProvisionedThroughputExceededException") "t" sBatch
      = (sBatch, some "ProvisionedThroughputExceededException") := by
  rfl

/-- C7 (amended).  When the durable write of a threshold-triggered flush
fails with a store error, the failure propagates to the caller of the
triggering operation (it is raised, not swallowed), but the
`batch_pairs.clear()` that follows the write never runs: the state —
including the unflushed `batch_pairs` — is left exactly unchanged, so a
later flush attempt (second conjunct, with a healthy store) still writes
the very same pairs. -/
theorem flush_failure_amended (cfg : Config) (s : MState) (e now : String)
    (hlen : cfg.BATCH_PAIRS ≤ s.ts.batch_pairs.length)
    (hne : s.ts.batch_pairs ≠ [])
    (hnodup : has_dup_key (item_keys
        (build_items s.ts.thread_id s.ts.session_id now s.ts.batch_pairs)) = false) :
    check_and_flush_batch_exc cfg (.error e) now s = (s, some e)
    ∧ check_and_flush_batch_exc cfg (.ok ()) now s =
        ({ ts := { s.ts with batch_pairs := [] },
           written := s.written ++ s.ts.batch_pairs }, none) := by
  have hempty : s.ts.batch_pairs.isEmpty = false := by
    cases hb : s.ts.batch_pairs
    · exact absurd hb hne
    · rfl
  constructor <;>
  · unfold check_and_flush_batch_exc batch_write_pairs_exc
    rw [if_pos hlen]
    simp [hempty, hnodup]

/-- C7 (witness): the amended behaviour at the concrete two-pair batch
buffer `sBatch` under `cfg_small`. -/
theorem flush_failure_amended_witness :
    cfg_small.BATCH_PAIRS ≤ sBatch.ts.batch_pairs.length
    ∧ sBatch.ts.batch_pairs ≠ []
    ∧ check_and_flush_batch_exc cfg_small (.error "err") "t" sBatch = (sBatch, some "err") := by
  have h := flush_failure_amended cfg_small sBatch "err" "t" (by decide) (by decide) (by decide)
  exact ⟨by decide, by decide, h.1⟩

/-- Value of the `next_turn` attribute of the counter row (0 when the row
is absent). -/
def turn_value (st : CounterStore) : Nat :=
  match st.meta with
  | none => 0
  | some r => r.next_turn

lemma reserve_seq_block_eq (st : CounterStore) (count : Nat) (h : count ≠ 0) :
    reserve_seq_block st count =
      (counter_value st + 1, ⟨some ⟨counter_value st + count, turn_value st⟩⟩) := by
  unfold reserve_seq_block
  rw [if_neg h]
  cases st with
  | mk meta =>
      cases meta with
      | none =>
          simp only [ensure_meta_row, counter_value, turn_value]
          rw [Prod.mk.injEq]
          exact ⟨by omega, rfl⟩
      | some r =>
          simp only [ensure_meta_row, counter_value, turn_value]
          rw [Prod.mk.injEq]
          exact ⟨by omega, rfl⟩

lemma range'_append_one (s m n : Nat) :
    List.range' s m ++ List.range' (s + m) n = List.range' s (m + n) := by
  have h := List.range'_append s m n 1
  simp only [Nat.one_mul, Nat.add_comm n m] at h
  exact h

lemma reserve_all_join (st : CounterStore) (counts : List Nat) :
    ((reserve_all st counts).1.map block_seqs).flatten =
      List.range' (counter_value st + 1) counts.sum := by
  induction counts generalizing st with
  | nil => simp [reserve_all]
  | cons c cs ih =>
      by_cases hc : c = 0
      · subst hc
        show ((reserve_all st (0 :: cs)).1.map block_seqs).flatten = _
        have hres : reserve_seq_block st 0 = (0, st) := rfl
        simp only [reserve_all, hres, List.map_cons, List.flatten_cons, block_seqs,
          List.range'_zero, List.nil_append, List.sum_cons, Nat.zero_add]
        exact ih st
      · simp only [reserve_all, reserve_seq_block_eq st c hc, List.map_cons,
          List.flatten_cons, List.sum_cons]
        have hcv : counter_value (⟨some ⟨counter_value st + c, turn_value st⟩⟩ : CounterStore)
            = counter_value st + c := rfl
        rw [ih ⟨some ⟨counter_value st + c, turn_value st⟩⟩, hcv]
        show List.range' (counter_value st + 1) c ++
            List.range' (counter_value st + c + 1) cs.sum = _
        have harr : counter_value st + c + 1 = (counter_value st + 1) + c := by omega
        rw [harr, range'_append_one]

/-- C9.  `_reserve_seq_block` with `count ≥ 1` atomically adds `count` to
the per-thread counter row (creating it idempotently: re-running the
conditional put is a no-op, and when the row already exists — e.g. a racing
creator won — the ConditionalCheckFailedException path preserves it) and
returns the inclusive first value `old+1` of the reserved range.  Any
sequence of reservations against the shared store — hence any interleaving
of callers, each reservation being one atomic read-modify-write — yields
blocks that tile the half-open interval after the initial counter exactly:
contiguous and, in particular, pairwise disjoint (the flattened seqs are
duplicate-free). -/
theorem reserve_seq_block_spec (st : CounterStore) (count : Nat) (h : 1 ≤ count) :
    (reserve_seq_block st count).1 = counter_value st + 1
    ∧ counter_value (reserve_seq_block st count).2 = counter_value st + count
    ∧ ensure_meta_row (ensure_meta_row st) = ensure_meta_row st
    ∧ (∀ r, st.meta = some r → ensure_meta_row st = st)
    ∧ (∀ counts : List Nat,
        ((reserve_all st counts).1.map block_seqs).flatten =
          List.range' (counter_value st + 1) counts.sum)
    ∧ (∀ counts : List Nat,
        (((reserve_all st counts).1.map block_seqs).flatten).Nodup) := by
  have hc : count ≠ 0 := by omega
  refine ⟨?_, ?_, ?_, ?_, fun counts => reserve_all_join st counts, ?_⟩
  · rw [reserve_seq_block_eq st count hc]
  · rw [reserve_seq_block_eq st count hc]
    rfl
  · cases st with
    | mk meta => cases meta <;> rfl
  · intro r hr
    cases st with
    | mk meta =>
        cases meta with
        | none => exact absurd hr (by simp)
        | some r' => rfl
  · intro counts
    rw [reserve_all_join st counts]
    exact List.nodup_range' _ _

/-- C9 (witness): a reservation of 4 on an absent counter row returns
start 1, leaves the counter at 4, and three successive reservations tile
1..6 without duplicates. -/
theorem reserve_seq_block_spec_witness :
    (1 ≤ 4)
    ∧ (reserve_seq_block ⟨none⟩ 4).1 = counter_value ⟨none⟩ + 1
    ∧ ((reserve_all ⟨none⟩ [4, 1, 1]).1.map block_seqs).flatten =
        List.range' (counter_value ⟨none⟩ + 1) ([4, 1, 1] : List Nat).sum :=
  ⟨by decide, (reserve_seq_block_spec ⟨none⟩ 4 (by decide)).1,
   (reserve_seq_block_spec ⟨none⟩ 4 (by decide)).2.2.2.2.1 [4, 1, 1]⟩

/-- C10.  When the open pair is present but incomplete (user message only),
`flush_all` writes exactly the pairs of `context_pairs ++ batch_pairs` (the
open pair is excluded by the `is_complete` test), clears the whole
in-memory state and sets `open_pair` to `None`: the open user message is
neither written to the store nor retained anywhere — it is silently
discarded. -/
theorem flush_all_discards_open_pair (s : MState) (p : Pair)
    (h1 : s.ts.open_pair = some p) (h2 : p.assistant_message = none) :
    (flush_all s).ts.context_pairs = []
    ∧ (flush_all s).ts.batch_pairs = []
    ∧ (flush_all s).ts.open_pair = none
    ∧ (flush_all s).written = s.written ++ (s.ts.context_pairs ++ s.ts.batch_pairs) := by
  unfold flush_all
  rw [h1]
  have hc : (Pair.is_complete p) = false := by
    unfold Pair.is_complete
    rw [h2]
    rfl
  simp [hc, List.append_assoc]

/-- C10 (witness): after five complete pairs and one open start_turn,
flushing everything writes the five complete pairs only and drops the open
user message. -/
theorem flush_all_discards_open_pair_witness :
    (run5open.ts.open_pair = some ⟨6, ⟨"user", "u6", "t6", some 11, 6⟩, none⟩)
    ∧ (⟨6, ⟨"user", "u6", "t6", some 11, 6⟩, none⟩ : Pair).assistant_message = none
    ∧ (flush_all run5open).ts.open_pair = none
    ∧ (flush_all run5open).written =
        run5open.written ++ (run5open.ts.context_pairs ++ run5open.ts.batch_pairs) :=
  ⟨by decide, rfl,
   (flush_all_discards_open_pair run5open ⟨6, ⟨"user", "u6", "t6", some 11, 6⟩, none⟩
      (by decide) rfl).2.2.1,
   (flush_all_discards_open_pair run5open ⟨6, ⟨"user", "u6", "t6", some 11, 6⟩, none⟩
      (by decide) rfl).2.2.2⟩

end TazaTicket
